import Mathlib

/-
  Verification of the VDOT engine of the vdot repository.

  The numerical core lives in notebooks/1-basics.ipynb: an oxygen-cost
  quadratic, an oxygen-fraction curve, the performance index (VDOT), a
  residual function handed to a bisection root finder on the bracket
  [1, 600] minutes, an inverse-velocity formula, and a table of five
  training-intensity zones.  The notebook works with real-valued
  formulas; we embed them over the reals.  The bisection routine itself
  and the error-reporting wrappers are not part of the sources, so they
  are modelled from the specification where indicated.
-/

open Real Filter

/-- Oxygen cost of running at velocity v (meters/minute), from the cell
computing vo2 in notebooks/1-basics.ipynb. -/
noncomputable def oxygenCost (v : ℝ) : ℝ :=
  -4.6 + 0.182258 * v + 0.000104 * v ^ 2

/-- Fraction of maximal oxygen uptake sustainable for a race of t minutes,
from the cell computing pct in notebooks/1-basics.ipynb. -/
noncomputable def oxygenFraction (t : ℝ) : ℝ :=
  0.8 + 0.1894393 * Real.exp (-0.012778 * t) + 0.2989558 * Real.exp (-0.1932605 * t)

/-- The VDOT performance index of a race of d meters run in t minutes:
vdot = vo2 / pct in the notebook. -/
noncomputable def performanceIndex (d t : ℝ) : ℝ :=
  oxygenCost (d / t) / oxygenFraction t

/-- Residual function f(x, vdot, d) handed to the bisection solver,
verbatim from the notebook (x is the candidate duration in minutes). -/
noncomputable def f (x vdot d : ℝ) : ℝ :=
  (-4.6 + 0.182258 * d * x⁻¹ + 0.000104 * d ^ 2 * (x ^ 2)⁻¹) /
      (0.8 + 0.1894393 * Real.exp (-0.012778 * x) +
        0.2989558 * Real.exp (-0.1932605 * x)) -
    vdot

/-- Radicand of the square root inside the inverse-velocity formula g of
the notebook: 0.033218 - 0.000416 * (-4.6 - vo2). -/
noncomputable def ivRadicand (vo2 : ℝ) : ℝ :=
  0.033218 - 0.000416 * (-4.6 - vo2)

/-- Inverse of the oxygen-cost relation: the velocity formula of the
notebook, as a function of the oxygen cost vo2. -/
noncomputable def inverseVelocity (vo2 : ℝ) : ℝ :=
  (-0.182258 + Real.sqrt (ivRadicand vo2)) / 0.000208

/-- The notebook function g(vdot, pct): inverse velocity at oxygen cost
vdot * pct. -/
noncomputable def g (vdot pct : ℝ) : ℝ :=
  inverseVelocity (vdot * pct)

/-- The intensity-zone table (name, low fraction, high fraction), verbatim
from the paces dictionary of the notebook. -/
noncomputable def paces : List (String × ℝ × ℝ) :=
  [("Easy", 0.59, 0.74), ("Marathon", 0.75, 0.84), ("Threshold", 0.83, 0.88),
    ("Interval", 0.95, 1), ("Repetition", 1.05, 1.2)]

/-- Pace pair printed by the zone loop of the notebook: the two velocities
g(vdot, pct) are turned into paces 1000/v (minutes per km) and destructured
as slower, faster; the printed pair is (faster, slower), i.e. the pace from
the high fraction first. -/
noncomputable def zonePaceRange (vdot : ℝ) (z : ℝ × ℝ) : ℝ × ℝ :=
  (1000 / g vdot z.2, 1000 / g vdot z.1)

/-- Modelled from the spec: computePaceRange orders the two computed pace
values by comparing them directly, returning (faster, slower).  The pace
formulas are those of the notebook; only the explicit comparison is taken
from the spec (the notebook destructures by position instead). -/
noncomputable def computePaceRange (vdot : ℝ) (z : ℝ × ℝ) : ℝ × ℝ :=
  if 1000 / g vdot z.1 ≤ 1000 / g vdot z.2 then
    (1000 / g vdot z.1, 1000 / g vdot z.2)
  else
    (1000 / g vdot z.2, 1000 / g vdot z.1)

/-- Average of the two pace values of a zone, for a fixed index. -/
noncomputable def averagePace (vdot : ℝ) (z : ℝ × ℝ) : ℝ :=
  (1000 / g vdot z.1 + 1000 / g vdot z.2) / 2

/-- Modelled from the spec: the generic bisection loop of section 4.2
(the notebook delegates to a library routine whose source is not part of
this repository).  It halves the bracket, keeping the half on which the
function changes sign, until the width is below tol or the fuel runs out. -/
noncomputable def bisectAux (F : ℝ → ℝ) (tol : ℝ) : ℕ → ℝ → ℝ → ℝ × ℝ
  | 0, lo, hi => (lo, hi)
  | n + 1, lo, hi =>
    if hi - lo < tol then (lo, hi)
    else if F lo * F ((lo + hi) / 2) ≤ 0 then bisectAux F tol n lo ((lo + hi) / 2)
    else bisectAux F tol n ((lo + hi) / 2) hi

/-- Modelled from the spec: the equivalent-time solver.  It checks that the
residual has opposite signs at the fixed bracket ends 1 and 600 minutes
(otherwise it reports failure, modelled as none), then runs bisection with
tolerance 1e-6 and fuel 100 and returns the midpoint of the final bracket.
The residual is the notebook function f. -/
noncomputable def computeEquivalentTime (vdot d : ℝ) : Option ℝ :=
  if f 1 vdot d * f 600 vdot d < 0 then
    some (((bisectAux (fun x => f x vdot d) 1e-6 100 1 600).1 +
      (bisectAux (fun x => f x vdot d) 1e-6 100 1 600).2) / 2)
  else none

/-- Modelled from the spec: computeIndex validates its inputs (failure on
non-positive distance or duration, modelled as none) before evaluating the
notebook formula vdot = vo2 / pct. -/
noncomputable def computeIndex (d t : ℝ) : Option ℝ :=
  if d ≤ 0 ∨ t ≤ 0 then none else some (performanceIndex d t)

/- ------------------------------------------------------------------ -/
/- Basic facts about the residual and the oxygen-fraction curve.       -/
/- ------------------------------------------------------------------ -/

lemma f_eq (x vdot d : ℝ) : f x vdot d = performanceIndex d x - vdot := by
  unfold f performanceIndex oxygenCost oxygenFraction
  rw [div_eq_mul_inv d x, mul_pow, inv_pow]
  ring_nf

lemma oxygenFraction_gt (t : ℝ) : 0.8 < oxygenFraction t := by
  unfold oxygenFraction
  have h1 : 0 < Real.exp (-0.012778 * t) := Real.exp_pos _
  have h2 : 0 < Real.exp (-0.1932605 * t) := Real.exp_pos _
  nlinarith

lemma oxygenFraction_pos (t : ℝ) : 0 < oxygenFraction t :=
  lt_trans (by norm_num) (oxygenFraction_gt t)

lemma oxygenFraction_lt (t : ℝ) (ht : 0 < t) : oxygenFraction t < 1.2883951 := by
  unfold oxygenFraction
  have h1 : Real.exp (-0.012778 * t) < 1 := Real.exp_lt_one_iff.2 (by nlinarith)
  have h2 : Real.exp (-0.1932605 * t) < 1 := Real.exp_lt_one_iff.2 (by nlinarith)
  have h3 : 0 < Real.exp (-0.012778 * t) := Real.exp_pos _
  have h4 : 0 < Real.exp (-0.1932605 * t) := Real.exp_pos _
  nlinarith

lemma oxygenFraction_strictAnti : StrictAnti oxygenFraction := by
  intro a b hab
  unfold oxygenFraction
  have h1 : Real.exp (-0.012778 * b) < Real.exp (-0.012778 * a) :=
    Real.exp_lt_exp.2 (by nlinarith)
  have h2 : Real.exp (-0.1932605 * b) < Real.exp (-0.1932605 * a) :=
    Real.exp_lt_exp.2 (by nlinarith)
  nlinarith

/- ------------------------------------------------------------------ -/
/- Strict monotonicity of the performance index in the duration.       -/
/- ------------------------------------------------------------------ -/

lemma neg_one_le_mul_exp (u : ℝ) : -1 ≤ (1 + u) * Real.exp u := by
  have h1 : -u + 1 ≤ Real.exp (-u) := Real.add_one_le_exp (-u)
  have h2 : Real.exp (-u) * Real.exp u = 1 := by
    rw [← Real.exp_add]; simp
  have h3 : 0 < Real.exp u := Real.exp_pos u
  nlinarith [mul_le_mul_of_nonneg_right h1 h3.le]

lemma hasDerivAt_mul_oxygenFraction (t : ℝ) :
    HasDerivAt (fun s => s * oxygenFraction s)
      (oxygenFraction t +
        t * (0.1894393 * (Real.exp (-0.012778 * t) * -0.012778) +
          0.2989558 * (Real.exp (-0.1932605 * t) * -0.1932605))) t := by
  have h1 : HasDerivAt (fun s : ℝ => -0.012778 * s) (-0.012778) t := by
    simpa using (hasDerivAt_id t).const_mul (-0.012778 : ℝ)
  have h2 : HasDerivAt (fun s : ℝ => -0.1932605 * s) (-0.1932605) t := by
    simpa using (hasDerivAt_id t).const_mul (-0.1932605 : ℝ)
  have h3 := h1.exp
  have h4 := h2.exp
  have h5 : HasDerivAt oxygenFraction
      (0.1894393 * (Real.exp (-0.012778 * t) * -0.012778) +
        0.2989558 * (Real.exp (-0.1932605 * t) * -0.1932605)) t := by
    unfold oxygenFraction
    exact ((h3.const_mul (0.1894393 : ℝ)).const_add (0.8 : ℝ)).add
      (h4.const_mul (0.2989558 : ℝ))
  have h6 := (hasDerivAt_id t).mul h5
  simpa [one_mul] using h6

lemma mul_oxygenFraction_strictMono :
    StrictMono (fun t : ℝ => t * oxygenFraction t) := by
  apply strictMono_of_hasDerivAt_pos hasDerivAt_mul_oxygenFraction
  intro t
  have k1 := neg_one_le_mul_exp (-0.012778 * t)
  have k2 := neg_one_le_mul_exp (-0.1932605 * t)
  have h1 : 0 < Real.exp (-0.012778 * t) := Real.exp_pos _
  have h2 : 0 < Real.exp (-0.1932605 * t) := Real.exp_pos _
  unfold oxygenFraction
  nlinarith

lemma performanceIndex_anti {d t1 t2 : ℝ} (hd : 0 < d) (h1 : 0 < t1)
    (h12 : t1 < t2) : performanceIndex d t2 < performanceIndex d t1 := by
  have ht2 : 0 < t2 := h1.trans h12
  have hD1 : 0 < oxygenFraction t1 := oxygenFraction_pos t1
  have hD2 : 0 < oxygenFraction t2 := oxygenFraction_pos t2
  have hD21 : oxygenFraction t2 < oxygenFraction t1 := oxygenFraction_strictAnti h12
  have htD : t1 * oxygenFraction t1 < t2 * oxygenFraction t2 :=
    mul_oxygenFraction_strictMono h12
  have hv1 : 0 < d / t1 := div_pos hd h1
  have hv2 : 0 < d / t2 := div_pos hd ht2
  have hv21 : d / t2 < d / t1 := div_lt_div_of_pos_left hd h1 h12
  have hd1 : d / t1 * t1 = d := div_mul_cancel₀ d h1.ne'
  have hd2 : d / t2 * t2 = d := div_mul_cancel₀ d ht2.ne'
  -- key cross bound: (d/t2) * D1 < (d/t1) * D2
  have hkey : d / t2 * oxygenFraction t1 < d / t1 * oxygenFraction t2 := by
    rw [div_mul_eq_mul_div, div_mul_eq_mul_div, div_lt_div_iff₀ ht2 h1]
    nlinarith [mul_lt_mul_of_pos_left htD hd]
  unfold performanceIndex oxygenCost
  rw [div_lt_div_iff₀ hD2 hD1]
  nlinarith [mul_le_mul_of_nonneg_right hv21.le
      (mul_nonneg (by norm_num : (0:ℝ) ≤ 0.000104) (mul_pos hv1 hD2).le),
    mul_lt_mul_of_pos_left hkey (mul_pos (by norm_num : (0:ℝ) < 0.000104) hv2),
    mul_lt_mul_of_pos_left hkey (by norm_num : (0:ℝ) < 0.182258)]

/- ------------------------------------------------------------------ -/
/- Invariants of the bisection loop.                                   -/
/- ------------------------------------------------------------------ -/

lemma bisectAux_nest (F : ℝ → ℝ) (tol : ℝ) :
    ∀ (n : ℕ) (lo hi : ℝ), lo ≤ hi →
      lo ≤ (bisectAux F tol n lo hi).1 ∧
      (bisectAux F tol n lo hi).1 ≤ (bisectAux F tol n lo hi).2 ∧
      (bisectAux F tol n lo hi).2 ≤ hi := by
  intro n
  induction n with
  | zero => intro lo hi h; exact ⟨le_rfl, h, le_rfl⟩
  | succ n ih =>
    intro lo hi h
    simp only [bisectAux]
    split_ifs with h1 h2
    · exact ⟨le_rfl, h, le_rfl⟩
    · obtain ⟨a, b, c⟩ := ih lo ((lo + hi) / 2) (by linarith)
      exact ⟨a, b, c.trans (by linarith)⟩
    · obtain ⟨a, b, c⟩ := ih ((lo + hi) / 2) hi (by linarith)
      exact ⟨le_trans (by linarith) a, b, c⟩

lemma bisectAux_width (F : ℝ → ℝ) (tol : ℝ) :
    ∀ (n : ℕ) (lo hi : ℝ),
      (bisectAux F tol n lo hi).2 - (bisectAux F tol n lo hi).1 < tol ∨
      (bisectAux F tol n lo hi).2 - (bisectAux F tol n lo hi).1 ≤ (hi - lo) / 2 ^ n := by
  intro n
  induction n with
  | zero => intro lo hi; right; simp [bisectAux]
  | succ n ih =>
    intro lo hi
    simp only [bisectAux]
    split_ifs with h1 h2
    · left; exact h1
    · rcases ih lo ((lo + hi) / 2) with h | h
      · left; exact h
      · right
        have e : ((lo + hi) / 2 - lo) / 2 ^ n = (hi - lo) / 2 ^ (n + 1) := by ring
        linarith [e ▸ h]
    · rcases ih ((lo + hi) / 2) hi with h | h
      · left; exact h
      · right
        have e : (hi - (lo + hi) / 2) / 2 ^ n = (hi - lo) / 2 ^ (n + 1) := by ring
        linarith [e ▸ h]

lemma bisectAux_sign (F : ℝ → ℝ) (tol : ℝ) :
    ∀ (n : ℕ) (lo hi : ℝ), 0 < F lo → F hi ≤ 0 →
      0 < F (bisectAux F tol n lo hi).1 ∧ F (bisectAux F tol n lo hi).2 ≤ 0 := by
  intro n
  induction n with
  | zero => intro lo hi hlo hhi; exact ⟨hlo, hhi⟩
  | succ n ih =>
    intro lo hi hlo hhi
    simp only [bisectAux]
    split_ifs with h1 h2
    · exact ⟨hlo, hhi⟩
    · exact ih lo ((lo + hi) / 2) hlo (by nlinarith)
    · exact ih ((lo + hi) / 2) hi (by nlinarith) hhi

/-- Full analysis of the equivalent-time solver on a round-trip input:
if the index comes from a race of d meters in t minutes with t inside the
bracket, the solver succeeds and its answer is within the tolerance of t. -/
lemma roundTrip_aux {d t : ℝ} (hd : 0 < d) (h1 : 1 < t) (h6 : t < 600) :
    ∃ r, computeEquivalentTime (performanceIndex d t) d = some r ∧
      1 ≤ r ∧ r ≤ 600 ∧ |r - t| < 1e-6 := by
  have ht0 : (0 : ℝ) < t := lt_trans one_pos h1
  have hf1 : 0 < f 1 (performanceIndex d t) d := by
    rw [f_eq]
    have := performanceIndex_anti hd one_pos h1
    linarith
  have hf6 : f 600 (performanceIndex d t) d < 0 := by
    rw [f_eq]
    have := performanceIndex_anti hd ht0 h6
    linarith
  have hcond : f 1 (performanceIndex d t) d * f 600 (performanceIndex d t) d < 0 :=
    mul_neg_of_pos_of_neg hf1 hf6
  unfold computeEquivalentTime
  rw [if_pos hcond]
  obtain ⟨hn1, hn2, hn3⟩ :=
    bisectAux_nest (fun x => f x (performanceIndex d t) d) 1e-6 100 1 600 (by norm_num)
  obtain ⟨hs1, hs2⟩ :=
    bisectAux_sign (fun x => f x (performanceIndex d t) d) 1e-6 100 1 600 hf1 hf6.le
  have hs1' : 0 < f (bisectAux (fun x => f x (performanceIndex d t) d)
      1e-6 100 1 600).1 (performanceIndex d t) d := hs1
  have hs2' : f (bisectAux (fun x => f x (performanceIndex d t) d)
      1e-6 100 1 600).2 (performanceIndex d t) d ≤ 0 := hs2
  set p := bisectAux (fun x => f x (performanceIndex d t) d) 1e-6 100 1 600 with hp
  have hw : p.2 - p.1 < 1e-6 := by
    rcases bisectAux_width (fun x => f x (performanceIndex d t) d) 1e-6 100 1 600 with h | h
    · rw [← hp] at h
      exact h
    · rw [← hp] at h
      have : ((600 : ℝ) - 1) / 2 ^ 100 < 1e-6 := by norm_num
      linarith
  have hp1pos : (0 : ℝ) < p.1 := lt_of_lt_of_le one_pos hn1
  have htlo : p.1 < t := by
    by_contra hc
    push_neg at hc
    rcases eq_or_lt_of_le hc with he | hlt
    · rw [f_eq, ← he] at hs1'
      linarith
    · rw [f_eq] at hs1'
      have := performanceIndex_anti hd ht0 hlt
      linarith
  have hthi : t ≤ p.2 := by
    by_contra hc
    push_neg at hc
    rw [f_eq] at hs2'
    have hp2pos : (0 : ℝ) < p.2 := lt_of_lt_of_le hp1pos hn2
    have := performanceIndex_anti hd hp2pos hc
    linarith
  refine ⟨(p.1 + p.2) / 2, rfl, by linarith, by linarith, ?_⟩
  rw [abs_lt]
  constructor <;> linarith

/- ------------------------------------------------------------------ -/
/- Claims C1 to C4.                                                    -/
/- ------------------------------------------------------------------ -/

/-- Claim C1: round trip.  For every distance d > 0 and duration t inside
the solver bracket (1, 600), computing the index of (d, t) and asking the
equivalent-time solver for the same distance succeeds and returns a
duration within the solver tolerance 1e-6 minutes of t. -/
theorem claim1_round_trip (d t : ℝ) (hd : 0 < d) (h1 : 1 < t) (h6 : t < 600) :
    ∃ r, computeEquivalentTime (performanceIndex d t) d = some r ∧
      |r - t| < 1e-6 := by
  obtain ⟨r, hr, _, _, habs⟩ := roundTrip_aux hd h1 h6
  exact ⟨r, hr, habs⟩

theorem claim1_round_trip_witness :
    (0 : ℝ) < 5000 ∧ (1 : ℝ) < 2 ∧ (2 : ℝ) < 600 ∧
      ∃ r, computeEquivalentTime (performanceIndex 5000 2) 5000 = some r ∧
        |r - 2| < 1e-6 :=
  ⟨by norm_num, by norm_num, by norm_num,
    claim1_round_trip 5000 2 (by norm_num) (by norm_num) (by norm_num)⟩

/-- Claim C2: for every fixed distance d > 0 the performance index is
strictly decreasing in the duration (equivalently, strictly increasing in
velocity), and consequently the solver residual has at most one root on
any bracket of positive durations. -/
theorem claim2_index_monotone (d : ℝ) (hd : 0 < d) :
    (∀ t1 t2 : ℝ, 0 < t1 → t1 < t2 →
      performanceIndex d t2 < performanceIndex d t1) ∧
    ∀ I t1 t2 : ℝ, 0 < t1 → 0 < t2 → f t1 I d = 0 → f t2 I d = 0 → t1 = t2 := by
  refine ⟨fun t1 t2 h1 h12 => performanceIndex_anti hd h1 h12, ?_⟩
  intro I t1 t2 h1 h2 hr1 hr2
  rw [f_eq] at hr1 hr2
  by_contra hne
  rcases lt_or_gt_of_ne hne with h | h
  · have := performanceIndex_anti hd h1 h
    linarith
  · have := performanceIndex_anti hd h2 h
    linarith

theorem claim2_index_monotone_witness :
    performanceIndex 5000 3 < performanceIndex 5000 2 :=
  (claim2_index_monotone 5000 (by norm_num)).1 2 3 (by norm_num) (by norm_num)

/-- Claim C3: the equivalent-time solver on the fixed bracket [1, 600]
fails exactly when the residual does not take opposite signs at the two
bracket ends, and on success the returned duration lies inside [1, 600]. -/
theorem claim3_solver_bracket (I d : ℝ) :
    (computeEquivalentTime I d = none ↔
      ¬((0 < f 1 I d ∧ f 600 I d < 0) ∨ (f 1 I d < 0 ∧ 0 < f 600 I d))) ∧
    ∀ r, computeEquivalentTime I d = some r → 1 ≤ r ∧ r ≤ 600 := by
  constructor
  · unfold computeEquivalentTime
    split_ifs with hcond
    · exact iff_of_false (by simp) (not_not_intro (mul_neg_iff.mp hcond))
    · exact iff_of_true rfl fun hdisj => hcond (mul_neg_iff.mpr hdisj)
  · intro r hr
    unfold computeEquivalentTime at hr
    split_ifs at hr with hcond
    · obtain ⟨hn1, hn2, hn3⟩ :=
        bisectAux_nest (fun x => f x I d) 1e-6 100 1 600 (by norm_num)
      have := Option.some.inj hr
      rw [← this]
      constructor <;> linarith

theorem claim3_solver_bracket_witness :
    ∃ r, computeEquivalentTime (performanceIndex 5000 2) 5000 = some r ∧
      1 ≤ r ∧ r ≤ 600 := by
  obtain ⟨r, hr, -, -, -⟩ :=
    roundTrip_aux (d := 5000) (t := 2) (by norm_num) (by norm_num) (by norm_num)
  exact ⟨r, hr, (claim3_solver_bracket (performanceIndex 5000 2) 5000).2 r hr⟩

/-- Claim C4: computeIndex fails exactly on non-positive distance or
duration, and on positive inputs returns the notebook index formula. -/
theorem claim4_input_validation (d t : ℝ) :
    (computeIndex d t = none ↔ d ≤ 0 ∨ t ≤ 0) ∧
    (0 < d → 0 < t → computeIndex d t = some (performanceIndex d t)) := by
  constructor
  · unfold computeIndex
    split_ifs with h
    · exact iff_of_true rfl h
    · exact iff_of_false (by simp) h
  · intro h1 h2
    unfold computeIndex
    rw [if_neg]
    push_neg
    exact ⟨h1, h2⟩

theorem claim4_input_validation_witness :
    computeIndex 5000 2 = some (performanceIndex 5000 2) :=
  (claim4_input_validation 5000 2).2 (by norm_num) (by norm_num)

/- ------------------------------------------------------------------ -/
/- Claims C5 and C6.                                                   -/
/- ------------------------------------------------------------------ -/

lemma oxygenFraction_tendsto : Tendsto oxygenFraction atTop (nhds 0.8) := by
  have hb1 : Tendsto (fun t : ℝ => -0.012778 * t) atTop atBot :=
    (tendsto_const_mul_atBot_of_neg (by norm_num)).2 tendsto_id
  have hb2 : Tendsto (fun t : ℝ => -0.1932605 * t) atTop atBot :=
    (tendsto_const_mul_atBot_of_neg (by norm_num)).2 tendsto_id
  have he1 : Tendsto (fun t : ℝ => Real.exp (-0.012778 * t)) atTop (nhds 0) :=
    Real.tendsto_exp_atBot.comp hb1
  have he2 : Tendsto (fun t : ℝ => Real.exp (-0.1932605 * t)) atTop (nhds 0) :=
    Real.tendsto_exp_atBot.comp hb2
  have := (tendsto_const_nhds (x := (0.8 : ℝ)) (f := atTop)).add
    ((he1.const_mul (0.1894393 : ℝ)).add (he2.const_mul (0.2989558 : ℝ)))
  unfold oxygenFraction
  simpa [add_assoc] using this

/-- Claim C5 (amended): the oxygen-fraction curve is strictly decreasing,
approaches 0.8 at infinity, and for t > 0 its values lie strictly between
0.8 and its limiting value 1.2883951 at duration 0 — not within (0.8, 1]
as claimed, since for short races the curve exceeds 1. -/
theorem claim5_oxygen_fraction_range :
    StrictAnti oxygenFraction ∧
    (∀ t : ℝ, 0 < t → 0.8 < oxygenFraction t ∧ oxygenFraction t < 1.2883951) ∧
    Tendsto oxygenFraction atTop (nhds 0.8) :=
  ⟨oxygenFraction_strictAnti,
    fun t ht => ⟨oxygenFraction_gt t, oxygenFraction_lt t ht⟩,
    oxygenFraction_tendsto⟩

/-- Claim C5, counterexample to the stated range (0.8, 1]: at duration
1 minute the oxygen fraction exceeds 1. -/
theorem claim5_counterexample : 1 < oxygenFraction 1 := by
  unfold oxygenFraction
  have h1 := Real.add_one_le_exp (-0.012778 * 1)
  have h2 := Real.add_one_le_exp (-0.1932605 * 1)
  nlinarith

theorem claim5_witness :
    0.8 < oxygenFraction 2 ∧ oxygenFraction 2 < 1.2883951 :=
  claim5_oxygen_fraction_range.2.1 2 (by norm_num)

lemma inverseVelocity_exact (vo2 : ℝ) (h : 0 ≤ ivRadicand vo2) :
    oxygenCost (inverseVelocity vo2) = vo2 + 5359 / 104000000 := by
  have hs : Real.sqrt (ivRadicand vo2) ^ 2 = ivRadicand vo2 := Real.sq_sqrt h
  unfold ivRadicand at hs
  unfold oxygenCost inverseVelocity ivRadicand
  linear_combination (31250 / 13 : ℝ) * hs

/-- Claim C6 (amended): inverseVelocity is not an exact section of the
oxygen-cost quadratic; because the code constant 0.033218 differs from
0.182258 squared (= 0.033217978564), evaluating the oxygen cost at the
returned velocity yields vo2 plus the constant offset 5359 / 104000000
(about 5.15e-5), for every vo2 with non-negative radicand. -/
theorem claim6_inverse_velocity (vo2 : ℝ) (h : 0 ≤ ivRadicand vo2) :
    oxygenCost (inverseVelocity vo2) = vo2 + 5359 / 104000000 :=
  inverseVelocity_exact vo2 h

/-- Claim C6, counterexample to exactness at vo2 = 30: the oxygen cost of
the computed velocity differs from 30. -/
theorem claim6_counterexample : oxygenCost (inverseVelocity 30) ≠ 30 := by
  have h := inverseVelocity_exact 30 (by unfold ivRadicand; norm_num)
  rw [h]
  norm_num

theorem claim6_witness :
    0 ≤ ivRadicand 50 ∧
      oxygenCost (inverseVelocity 50) = 50 + 5359 / 104000000 :=
  ⟨by unfold ivRadicand; norm_num,
    claim6_inverse_velocity 50 (by unfold ivRadicand; norm_num)⟩

/- ------------------------------------------------------------------ -/
/- Claims C7, C8 and C10.                                              -/
/- ------------------------------------------------------------------ -/

lemma ivRadicand_pos {x : ℝ} (hx : 0 ≤ x) : 0 < ivRadicand x := by
  unfold ivRadicand
  nlinarith

lemma inverseVelocity_pos {vo2 : ℝ} (h : 0 ≤ vo2) : 0 < inverseVelocity vo2 := by
  unfold inverseVelocity
  have hrad : (0.182258 : ℝ) ^ 2 < ivRadicand vo2 := by
    unfold ivRadicand
    nlinarith
  have hsq : (0.182258 : ℝ) < Real.sqrt (ivRadicand vo2) :=
    (Real.lt_sqrt (by norm_num)).2 hrad
  apply div_pos (by linarith) (by norm_num)

lemma inverseVelocity_lt {a b : ℝ} (ha : 0 ≤ a) (hab : a < b) :
    inverseVelocity a < inverseVelocity b := by
  unfold inverseVelocity
  have h1 : 0 ≤ ivRadicand a := (ivRadicand_pos ha).le
  have h2 : ivRadicand a < ivRadicand b := by
    unfold ivRadicand
    nlinarith
  rw [div_lt_div_iff₀ (by norm_num) (by norm_num)]
  nlinarith [Real.sqrt_lt_sqrt h1 h2]

lemma pace_lt {a b : ℝ} (ha : 0 ≤ a) (hab : a < b) :
    1000 / inverseVelocity b < 1000 / inverseVelocity a :=
  div_lt_div_of_pos_left (by norm_num) (inverseVelocity_pos ha)
    (inverseVelocity_lt ha hab)

lemma zonePair_ok {I lo hi : ℝ} (hI : 0 < I) (hlo : 0 < lo) (hlh : lo < hi) :
    computePaceRange I (lo, hi) = zonePaceRange I (lo, hi) ∧
    (zonePaceRange I (lo, hi)).1 ≤ (zonePaceRange I (lo, hi)).2 := by
  have hp : 1000 / inverseVelocity (I * hi) < 1000 / inverseVelocity (I * lo) :=
    pace_lt (mul_pos hI hlo).le (by nlinarith)
  simp only [computePaceRange, zonePaceRange, g]
  rw [if_neg (not_le.mpr hp)]
  exact ⟨rfl, hp.le⟩

/-- Claim C7: for every positive index and every zone of the table, the
pair printed by the notebook loop is ordered (faster, slower), and it
agrees with the spec-side computePaceRange that orders the two computed
paces by direct comparison. -/
theorem claim7_pace_order :
    ∀ I : ℝ, 0 < I → ∀ z ∈ paces,
      computePaceRange I z.2 = zonePaceRange I z.2 ∧
      (zonePaceRange I z.2).1 ≤ (zonePaceRange I z.2).2 := by
  intro I hI z hz
  simp only [paces] at hz
  fin_cases hz <;> exact zonePair_ok hI (by norm_num) (by norm_num)

theorem claim7_pace_order_witness :
    computePaceRange 39 ((0.59 : ℝ), (0.74 : ℝ)) = zonePaceRange 39 (0.59, 0.74) ∧
      (zonePaceRange 39 ((0.59 : ℝ), (0.74 : ℝ))).1 ≤
        (zonePaceRange 39 (0.59, 0.74)).2 :=
  claim7_pace_order 39 (by norm_num) ("Easy", 0.59, 0.74) (by simp [paces])

lemma averagePace_lt {I lo1 hi1 lo2 hi2 : ℝ} (hI : 0 < I) (h1 : 0 < lo1)
    (h2 : 0 < hi1) (hl : lo1 < lo2) (hh : hi1 < hi2) :
    averagePace I (lo2, hi2) < averagePace I (lo1, hi1) := by
  have p1 := pace_lt (mul_pos hI h1).le (show I * lo1 < I * lo2 by nlinarith)
  have p2 := pace_lt (mul_pos hI h2).le (show I * hi1 < I * hi2 by nlinarith)
  simp only [averagePace, g]
  linarith

/-- Claim C8 (amended): the zone table is exactly the five stated zones in
the stated order, and both the low and the high fraction bounds are
strictly ascending along the table, so for every positive index the
average pace strictly decreases from Easy through Repetition.  The zones
are, however, not non-overlapping: Marathon and Threshold intersect. -/
theorem claim8_zone_table :
    paces = [("Easy", 0.59, 0.74), ("Marathon", 0.75, 0.84),
      ("Threshold", 0.83, 0.88), ("Interval", 0.95, 1),
      ("Repetition", 1.05, 1.2)] ∧
    List.Chain' (fun a b : String × ℝ × ℝ => a.2.1 < b.2.1 ∧ a.2.2 < b.2.2)
      paces ∧
    ∀ I : ℝ, 0 < I →
      averagePace I (0.75, 0.84) < averagePace I (0.59, 0.74) ∧
      averagePace I (0.83, 0.88) < averagePace I (0.75, 0.84) ∧
      averagePace I (0.95, 1) < averagePace I (0.83, 0.88) ∧
      averagePace I (1.05, 1.2) < averagePace I (0.95, 1) := by
  refine ⟨rfl, ?_, ?_⟩
  · norm_num [paces, List.chain'_cons]
  · intro I hI
    exact ⟨averagePace_lt hI (by norm_num) (by norm_num) (by norm_num) (by norm_num),
      averagePace_lt hI (by norm_num) (by norm_num) (by norm_num) (by norm_num),
      averagePace_lt hI (by norm_num) (by norm_num) (by norm_num) (by norm_num),
      averagePace_lt hI (by norm_num) (by norm_num) (by norm_num) (by norm_num)⟩

/-- Claim C8, counterexample to the non-overlapping part: the Threshold
low bound 0.83 lies inside the Marathon range [0.75, 0.84], so the two
fraction ranges intersect. -/
theorem claim8_counterexample :
    (paces.get ⟨1, by norm_num [paces]⟩).2.1 ≤
        (paces.get ⟨2, by norm_num [paces]⟩).2.1 ∧
      (paces.get ⟨2, by norm_num [paces]⟩).2.1 ≤
        (paces.get ⟨1, by norm_num [paces]⟩).2.2 := by
  simp only [paces, List.get]
  norm_num

theorem claim8_witness :
    averagePace 40 ((0.75 : ℝ), (0.84 : ℝ)) < averagePace 40 (0.59, 0.74) :=
  (claim8_zone_table.2.2 40 (by norm_num)).1

/-- Claim C10, counterexample (negation of the claim): no positive index
combined with any zone fraction bound of the table makes the radicand of
the inverse-velocity formula negative. -/
theorem claim10_counterexample :
    ¬∃ I : ℝ, 0 < I ∧ ∃ z ∈ paces,
      ivRadicand (I * z.2.1) < 0 ∨ ivRadicand (I * z.2.2) < 0 := by
  rintro ⟨I, hI, z, hz, hneg⟩
  simp only [paces] at hz
  fin_cases hz <;>
    rcases hneg with h | h <;>
    exact absurd h (not_lt.2 (ivRadicand_pos (mul_pos hI (by norm_num)).le).le)

/-- Claim C10 (amended): the radicand is positive for every non-negative
oxygen cost, hence for every positive index and zone bound; it is negative
exactly when the oxygen cost is below -87829/1040 (about -84.45), which is
reachable only with a negative index, for example index -150 with the
Easy low bound 0.59. -/
theorem claim10_radicand :
    (∀ I p : ℝ, 0 ≤ I * p → 0 < ivRadicand (I * p)) ∧
    (∀ x : ℝ, ivRadicand x < 0 ↔ x < -87829 / 1040) ∧
    ivRadicand ((-150 : ℝ) * 0.59) < 0 := by
  refine ⟨fun I p h => ivRadicand_pos h, fun x => ?_, by unfold ivRadicand; norm_num⟩
  unfold ivRadicand
  constructor <;> intro h <;> nlinarith

theorem claim10_witness : 0 < ivRadicand (39 * 0.59) :=
  claim10_radicand.1 39 0.59 (by norm_num)

/- ------------------------------------------------------------------ -/
/- Certified numerical bounds on the exponential, for Claim C9.        -/
/- ------------------------------------------------------------------ -/

lemma exp_neg_bounds7 {x : ℝ} (h0 : 0 ≤ x) (h1 : x ≤ 1) :
    1 - x + x ^ 2 / 2 - x ^ 3 / 6 + x ^ 4 / 24 - x ^ 5 / 120 + x ^ 6 / 720 -
        x ^ 7 / 4410 ≤ Real.exp (-x) ∧
      Real.exp (-x) ≤ 1 - x + x ^ 2 / 2 - x ^ 3 / 6 + x ^ 4 / 24 - x ^ 5 / 120 +
        x ^ 6 / 720 + x ^ 7 / 4410 := by
  have habs : |(-x : ℝ)| ≤ 1 := by rwa [abs_neg, abs_of_nonneg h0]
  have h := Real.exp_bound habs (n := 7) (by norm_num)
  rw [abs_neg, abs_of_nonneg h0] at h
  simp only [Finset.sum_range_succ, Finset.sum_range_zero, Nat.factorial] at h
  norm_num at h
  rcases abs_le.1 h with ⟨ha, hb⟩
  constructor <;> nlinarith [ha, hb]

lemma exp_neg_bounds5 {x : ℝ} (h0 : 0 ≤ x) (h1 : x ≤ 1) :
    1 - x + x ^ 2 / 2 - x ^ 3 / 6 + x ^ 4 / 24 - x ^ 5 / 100 ≤ Real.exp (-x) ∧
      Real.exp (-x) ≤ 1 - x + x ^ 2 / 2 - x ^ 3 / 6 + x ^ 4 / 24 + x ^ 5 / 100 := by
  have habs : |(-x : ℝ)| ≤ 1 := by rwa [abs_neg, abs_of_nonneg h0]
  have h := Real.exp_bound habs (n := 5) (by norm_num)
  rw [abs_neg, abs_of_nonneg h0] at h
  simp only [Finset.sum_range_succ, Finset.sum_range_zero, Nat.factorial] at h
  norm_num at h
  rcases abs_le.1 h with ⟨ha, hb⟩
  constructor <;> nlinarith [ha, hb]

lemma exp_neg_crude_ub {y : ℝ} (h : 0 ≤ y) :
    Real.exp (-y) ≤ (16 / (16 + y)) ^ 16 := by
  have h16 : (0 : ℝ) < 16 + y := by linarith
  have hstep : Real.exp (-(y / 16)) ≤ 16 / (16 + y) := by
    have hle := Real.add_one_le_exp (y / 16)
    have hq : (16 + y) / 16 ≤ Real.exp (y / 16) := by
      have : (16 + y) / 16 = y / 16 + 1 := by ring
      linarith
    rw [Real.exp_neg]
    have hqpos : (0 : ℝ) < (16 + y) / 16 := by positivity
    calc (Real.exp (y / 16))⁻¹ ≤ ((16 + y) / 16)⁻¹ := inv_anti₀ hqpos hq
      _ = 16 / (16 + y) := by rw [inv_div]
  have hpow : (Real.exp (-(y / 16))) ^ 16 = Real.exp (-y) := by
    rw [← Real.exp_nat_mul]
    congr 1
    push_cast
    ring
  rw [← hpow]
  exact pow_le_pow_left₀ (Real.exp_pos _).le hstep 16

lemma exp_x11_bounds :
    (0.73058267 : ℝ) ≤ Real.exp (-(4708693 / 15000000)) ∧
      Real.exp (-(4708693 / 15000000 : ℝ)) ≤ 0.73058281 := by
  obtain ⟨hl, hu⟩ := exp_neg_bounds7 (x := 4708693 / 15000000) (by norm_num) (by norm_num)
  constructor
  · refine le_trans (by norm_num) hl
  · refine le_trans hu (by norm_num)

lemma exp_x12_base_bounds :
    (0.55240557 : ℝ) ≤ Real.exp (-(284865977 / 480000000)) ∧
      Real.exp (-(284865977 / 480000000 : ℝ)) ≤ 0.55241734 := by
  obtain ⟨hl, hu⟩ :=
    exp_neg_bounds7 (x := 284865977 / 480000000) (by norm_num) (by norm_num)
  constructor
  · refine le_trans (by norm_num) hl
  · refine le_trans hu (by norm_num)

lemma exp_x12_bounds :
    (0.008670904 : ℝ) ≤ Real.exp (-(284865977 / 60000000)) ∧
      Real.exp (-(284865977 / 60000000 : ℝ)) ≤ 0.008672383 := by
  have hsplit : Real.exp (-(284865977 / 60000000 : ℝ)) =
      Real.exp (-(284865977 / 480000000 : ℝ)) ^ 8 := by
    rw [← Real.exp_nat_mul]
    norm_num
  obtain ⟨hl, hu⟩ := exp_x12_base_bounds
  rw [hsplit]
  constructor
  · calc (0.008670904 : ℝ) ≤ (0.55240557 : ℝ) ^ 8 := by norm_num
      _ ≤ Real.exp (-(284865977 / 480000000 : ℝ)) ^ 8 :=
        pow_le_pow_left₀ (by norm_num) hl 8
  · calc Real.exp (-(284865977 / 480000000 : ℝ)) ^ 8 ≤ (0.55241734 : ℝ) ^ 8 :=
        pow_le_pow_left₀ (Real.exp_pos _).le hu 8
      _ ≤ 0.008672383 := by norm_num

lemma pct5_bounds :
    (0.9409932 : ℝ) ≤ oxygenFraction (737 / 30) ∧
      oxygenFraction (737 / 30) ≤ 0.9409938 := by
  unfold oxygenFraction
  rw [show (-0.012778 * (737 / 30) : ℝ) = -(4708693 / 15000000) by norm_num,
    show (-0.1932605 * (737 / 30) : ℝ) = -(284865977 / 60000000) by norm_num]
  obtain ⟨h1l, h1u⟩ := exp_x11_bounds
  obtain ⟨h2l, h2u⟩ := exp_x12_bounds
  constructor <;> linarith

lemma index5_bounds :
    (39.1103 : ℝ) ≤ performanceIndex 5000 (737 / 30) ∧
      performanceIndex 5000 (737 / 30) ≤ 39.1105 := by
  unfold performanceIndex
  rw [show oxygenCost (5000 / (737 / 30)) = 39980089 / 1086338 by
    unfold oxygenCost; norm_num]
  obtain ⟨hpl, hpu⟩ := pct5_bounds
  have hpos := oxygenFraction_pos (737 / 30)
  constructor
  · rw [le_div_iff₀ hpos]
    nlinarith
  · rw [div_le_iff₀ hpos]
    nlinarith

lemma pct_a10_ub : oxygenFraction (1274 / 25) ≤ 0.8988011 := by
  unfold oxygenFraction
  rw [show (-0.012778 * (1274 / 25) : ℝ) = -(4069793 / 6250000) by norm_num,
    show (-0.1932605 * (1274 / 25) : ℝ) = -(246213877 / 25000000) by norm_num]
  have h1 : Real.exp (-(4069793 / 6250000 : ℝ)) ≤ 0.52145733 := by
    obtain ⟨-, hu⟩ := exp_neg_bounds7 (x := 4069793 / 6250000) (by norm_num) (by norm_num)
    refine le_trans hu (by norm_num)
  have h2 : Real.exp (-(246213877 / 25000000 : ℝ)) ≤ 0.000055302 := by
    have hsplit : Real.exp (-(246213877 / 25000000 : ℝ)) =
        Real.exp (-(246213877 / 400000000 : ℝ)) ^ 16 := by
      rw [← Real.exp_nat_mul]
      norm_num
    obtain ⟨-, hu⟩ :=
      exp_neg_bounds5 (x := 246213877 / 400000000) (by norm_num) (by norm_num)
    rw [hsplit]
    calc Real.exp (-(246213877 / 400000000 : ℝ)) ^ 16 ≤ (0.54190248 : ℝ) ^ 16 :=
        pow_le_pow_left₀ (Real.exp_pos _).le (le_trans hu (by norm_num)) 16
      _ ≤ 0.000055302 := by norm_num
  linarith

lemma pct_b10_lb : (0.8987668 : ℝ) ≤ oxygenFraction (50983 / 1000) := by
  unfold oxygenFraction
  rw [show (-0.012778 * (50983 / 1000) : ℝ) = -(325730387 / 500000000) by norm_num,
    show (-0.1932605 * (50983 / 1000) : ℝ) = -(19706000143 / 2000000000) by norm_num]
  have h1 : (0.52128158 : ℝ) ≤ Real.exp (-(325730387 / 500000000)) := by
    obtain ⟨hl, -⟩ :=
      exp_neg_bounds7 (x := 325730387 / 500000000) (by norm_num) (by norm_num)
    refine le_trans (by norm_num) hl
  have h2 : (0.000052251 : ℝ) ≤ Real.exp (-(19706000143 / 2000000000)) := by
    have hsplit : Real.exp (-(19706000143 / 2000000000 : ℝ)) =
        Real.exp (-(19706000143 / 32000000000 : ℝ)) ^ 16 := by
      rw [← Real.exp_nat_mul]
      norm_num
    obtain ⟨hl, -⟩ :=
      exp_neg_bounds5 (x := 19706000143 / 32000000000) (by norm_num) (by norm_num)
    rw [hsplit]
    calc (0.000052251 : ℝ) ≤ (0.53998463 : ℝ) ^ 16 := by norm_num
      _ ≤ Real.exp (-(19706000143 / 32000000000 : ℝ)) ^ 16 :=
        pow_le_pow_left₀ (by norm_num) (le_trans (by norm_num) hl) 16
  linarith

lemma pct_am_ub : oxygenFraction (11687 / 50) ≤ 0.8095619 := by
  unfold oxygenFraction
  rw [show (-0.012778 * (11687 / 50) : ℝ) = -(74668243 / 25000000) by norm_num,
    show (-0.1932605 * (11687 / 50) : ℝ) = -(4517270927 / 100000000) by norm_num]
  have h1 : Real.exp (-(74668243 / 25000000 : ℝ)) ≤ 0.05047466 := by
    have hsplit : Real.exp (-(74668243 / 25000000 : ℝ)) =
        Real.exp (-(74668243 / 100000000 : ℝ)) ^ 4 := by
      rw [← Real.exp_nat_mul]
      norm_num
    obtain ⟨-, hu⟩ :=
      exp_neg_bounds7 (x := 74668243 / 100000000) (by norm_num) (by norm_num)
    rw [hsplit]
    calc Real.exp (-(74668243 / 100000000 : ℝ)) ^ 4 ≤ (0.47398908 : ℝ) ^ 4 :=
        pow_le_pow_left₀ (Real.exp_pos _).le (le_trans hu (by norm_num)) 4
      _ ≤ 0.05047466 := by norm_num
  have h2 : Real.exp (-(4517270927 / 100000000 : ℝ)) ≤ 0.000000001 := by
    refine le_trans (exp_neg_crude_ub (by norm_num)) ?_
    rw [div_pow]
    rw [div_le_iff₀ (by positivity)]
    norm_num
  linarith

lemma pct_bm_lb : (0.8095181 : ℝ) ≤ oxygenFraction (11703 / 50) := by
  unfold oxygenFraction
  rw [show (-0.012778 * (11703 / 50) : ℝ) = -(74770467 / 25000000) by norm_num]
  have h1 : (0.05024376 : ℝ) ≤ Real.exp (-(74770467 / 25000000)) := by
    have hsplit : Real.exp (-(74770467 / 25000000 : ℝ)) =
        Real.exp (-(74770467 / 100000000 : ℝ)) ^ 4 := by
      rw [← Real.exp_nat_mul]
      norm_num
    obtain ⟨hl, -⟩ :=
      exp_neg_bounds7 (x := 74770467 / 100000000) (by norm_num) (by norm_num)
    rw [hsplit]
    calc (0.05024376 : ℝ) ≤ (0.47344609 : ℝ) ^ 4 := by norm_num
      _ ≤ Real.exp (-(74770467 / 100000000 : ℝ)) ^ 4 :=
        pow_le_pow_left₀ (by norm_num) (le_trans (by norm_num) hl) 4
  have h2 : (0 : ℝ) < Real.exp (-0.1932605 * (11703 / 50)) := Real.exp_pos _
  linarith

/- ------------------------------------------------------------------ -/
/- Residual signs for the C9 scenario, and the solver enclosure.       -/
/- ------------------------------------------------------------------ -/

lemma res10_a : 0 < f (1274 / 25) (performanceIndex 5000 (737 / 30)) 10000 := by
  rw [f_eq]
  have hkey : (39.1105 : ℝ) < performanceIndex 10000 (1274 / 25) := by
    unfold performanceIndex
    rw [show oxygenCost (10000 / (1274 / 25)) = 21955009 / 624260 by
      unfold oxygenCost; norm_num]
    rw [lt_div_iff₀ (oxygenFraction_pos _)]
    linarith [pct_a10_ub]
  linarith [index5_bounds.2]

lemma res10_b : f (50983 / 1000) (performanceIndex 5000 (737 / 30)) 10000 < 0 := by
  rw [f_eq]
  have hkey : performanceIndex 10000 (50983 / 1000) < 39.1103 := by
    unfold performanceIndex
    rw [show oxygenCost (10000 / (50983 / 1000)) = 456819856053 / 12996331445 by
      unfold oxygenCost; norm_num]
    rw [div_lt_iff₀ (oxygenFraction_pos _)]
    linarith [pct_b10_lb]
  linarith [index5_bounds.1]

lemma res10_1 : 0 < f 1 (performanceIndex 5000 (737 / 30)) 10000 := by
  rw [f_eq]
  have hkey : (39.1105 : ℝ) < performanceIndex 10000 1 := by
    unfold performanceIndex
    rw [show oxygenCost (10000 / 1) = 610899 / 50 by unfold oxygenCost; norm_num]
    rw [lt_div_iff₀ (oxygenFraction_pos _)]
    linarith [oxygenFraction_lt 1 one_pos]
  linarith [index5_bounds.2]

lemma res10_600 : f 600 (performanceIndex 5000 (737 / 30)) 10000 < 0 := by
  rw [f_eq]
  have hkey : performanceIndex 10000 600 < 0 := by
    unfold performanceIndex
    apply div_neg_of_neg_of_pos _ (oxygenFraction_pos 600)
    rw [show oxygenCost (10000 / 600) = -(138013 / 90000) by
      unfold oxygenCost; norm_num]
    norm_num
  linarith [index5_bounds.1]

lemma resm_a : 0 < f (11687 / 50) (performanceIndex 5000 (737 / 30)) 42195 := by
  rw [f_eq]
  have hkey : (39.1105 : ℝ) < performanceIndex 42195 (11687 / 50) := by
    unfold performanceIndex
    rw [show oxygenCost (42195 / (11687 / 50)) = 791820109 / 24986000 by
      unfold oxygenCost; norm_num]
    rw [lt_div_iff₀ (oxygenFraction_pos _)]
    linarith [pct_am_ub]
  linarith [index5_bounds.2]

lemma resm_b : f (11703 / 50) (performanceIndex 5000 (737 / 30)) 42195 < 0 := by
  rw [f_eq]
  have hkey : performanceIndex 42195 (11703 / 50) < 39.1103 := by
    unfold performanceIndex
    rw [show oxygenCost (42195 / (11703 / 50)) = 962870093977 / 30435602000 by
      unfold oxygenCost; norm_num]
    rw [div_lt_iff₀ (oxygenFraction_pos _)]
    linarith [pct_bm_lb]
  linarith [index5_bounds.1]

lemma resm_1 : 0 < f 1 (performanceIndex 5000 (737 / 30)) 42195 := by
  rw [f_eq]
  have hkey : (39.1105 : ℝ) < performanceIndex 42195 1 := by
    unfold performanceIndex
    rw [show oxygenCost (42195 / 1) = 19284925091 / 100000 by
      unfold oxygenCost; norm_num]
    rw [lt_div_iff₀ (oxygenFraction_pos _)]
    linarith [oxygenFraction_lt 1 one_pos]
  linarith [index5_bounds.2]

lemma resm_600 : f 600 (performanceIndex 5000 (737 / 30)) 42195 < 0 := by
  rw [f_eq]
  have hkey : performanceIndex 42195 600 < 39.1103 := by
    unfold performanceIndex
    rw [show oxygenCost (42195 / 600) = 1746327367 / 200000000 by
      unfold oxygenCost; norm_num]
    rw [div_lt_iff₀ (oxygenFraction_pos _)]
    linarith [oxygenFraction_gt 600]
  linarith [index5_bounds.1]

lemma equivTime_enclosure {I d a b : ℝ} (hd : 0 < d) (_ha : 0 < a) (hb : 0 < b)
    (hf1 : 0 < f 1 I d) (hf600 : f 600 I d < 0)
    (hfa : 0 < f a I d) (hfb : f b I d < 0) :
    ∃ r, computeEquivalentTime I d = some r ∧ a - 1e-6 < r ∧ r < b + 1e-6 := by
  have hcond : f 1 I d * f 600 I d < 0 := mul_neg_of_pos_of_neg hf1 hf600
  unfold computeEquivalentTime
  rw [if_pos hcond]
  obtain ⟨hn1, hn2, hn3⟩ :=
    bisectAux_nest (fun x => f x I d) 1e-6 100 1 600 (by norm_num)
  obtain ⟨hs1, hs2⟩ :=
    bisectAux_sign (fun x => f x I d) 1e-6 100 1 600 hf1 hf600.le
  have hs1' : 0 < f (bisectAux (fun x => f x I d) 1e-6 100 1 600).1 I d := hs1
  have hs2' : f (bisectAux (fun x => f x I d) 1e-6 100 1 600).2 I d ≤ 0 := hs2
  set p := bisectAux (fun x => f x I d) 1e-6 100 1 600 with hp
  have hw : p.2 - p.1 < 1e-6 := by
    rcases bisectAux_width (fun x => f x I d) 1e-6 100 1 600 with h | h
    · rw [← hp] at h
      exact h
    · rw [← hp] at h
      have : ((600 : ℝ) - 1) / 2 ^ 100 < 1e-6 := by norm_num
      linarith
  have hp1pos : (0 : ℝ) < p.1 := lt_of_lt_of_le one_pos hn1
  have hp2pos : (0 : ℝ) < p.2 := lt_of_lt_of_le hp1pos hn2
  have h1b : p.1 < b := by
    by_contra hc
    push_neg at hc
    rcases eq_or_lt_of_le hc with he | hlt
    · rw [← he] at hs1'
      linarith
    · have := performanceIndex_anti hd hb hlt
      rw [f_eq] at hs1' hfb
      linarith
  have h2a : a < p.2 := by
    by_contra hc
    push_neg at hc
    rcases eq_or_lt_of_le hc with he | hlt
    · rw [he] at hs2'
      linarith
    · have := performanceIndex_anti hd hp2pos hlt
      rw [f_eq] at hs2' hfa
      linarith
  exact ⟨(p.1 + p.2) / 2, rfl, by linarith, by linarith⟩

/-- Claim C9: the reference scenario.  A 5000 m race in 24:34 (duration
737/30 minutes) yields an index within 0.01 of 39.11; with that index the
equivalent-time solver returns a duration within one second (1/60 minute)
of 50:58 (1529/30 minutes) for 10000 m, and within ten seconds (1/6
minute) of 3:53:54 (2339/10 minutes) for the marathon distance 42195 m. -/
theorem claim9_reference_scenario :
    computeIndex 5000 (737 / 30) = some (performanceIndex 5000 (737 / 30)) ∧
    |performanceIndex 5000 (737 / 30) - 39.11| < 0.01 ∧
    (∃ r, computeEquivalentTime (performanceIndex 5000 (737 / 30)) 10000 = some r ∧
      |r - 1529 / 30| ≤ 1 / 60) ∧
    ∃ r, computeEquivalentTime (performanceIndex 5000 (737 / 30)) 42195 = some r ∧
      |r - 2339 / 10| ≤ 1 / 6 := by
  obtain ⟨hIl, hIu⟩ := index5_bounds
  refine ⟨?_, ?_, ?_, ?_⟩
  · unfold computeIndex
    rw [if_neg (show ¬((5000 : ℝ) ≤ 0 ∨ (737 / 30 : ℝ) ≤ 0) by
      push_neg
      exact ⟨by norm_num, by norm_num⟩)]
  · rw [abs_lt]
    constructor <;> linarith
  · obtain ⟨r, hr, h1, h2⟩ := equivTime_enclosure
      (I := performanceIndex 5000 (737 / 30)) (d := 10000)
      (a := 1274 / 25) (b := 50983 / 1000)
      (by norm_num) (by norm_num) (by norm_num)
      res10_1 res10_600 res10_a res10_b
    refine ⟨r, hr, ?_⟩
    rw [abs_le]
    constructor <;> linarith
  · obtain ⟨r, hr, h1, h2⟩ := equivTime_enclosure
      (I := performanceIndex 5000 (737 / 30)) (d := 42195)
      (a := 11687 / 50) (b := 11703 / 50)
      (by norm_num) (by norm_num) (by norm_num)
      resm_1 resm_600 resm_a resm_b
    refine ⟨r, hr, ?_⟩
    rw [abs_le]
    constructor <;> linarith
